import Mathlib

/-!
Verification development for the `create-m10n` project scaffolding tool
(source: `src/index.ts`).  The definitions below are shallow embeddings of
the functions of that file: the dotenv-style parser `readEnvFile`, the
Vercel environment-variable pusher `addVercelEnvVar`, the prerequisite
checker `checkAllPrerequisites`, the bootstrap pipeline `createProject`
(as a trace of external actions, parameterised by oracles for the results
of the external tools), and the argument handling of `main`.
-/

/-- Whitespace test mirroring the character class removed by the
JavaScript `String.prototype.trim` for the characters that can occur in
the inputs handled here (space, tab, newline, carriage return, vertical
tab, form feed). -/
def isSpaceChar (c : Char) : Bool :=
  c = ' ' || c = '\t' || c = '\n' || c = '\r' || c = '\x0b' || c = '\x0c'

/-- Embedding of `line.trim()`: remove leading and trailing whitespace of a
character list. -/
def trimChars (l : List Char) : List Char :=
  ((l.dropWhile isSpaceChar).reverse.dropWhile isSpaceChar).reverse

/-- Embedding of `String.prototype.trim` on whole strings. -/
def trimStr (s : String) : String :=
  String.mk (trimChars s.data)

/-- Embedding of `content.split("\n")` (JavaScript `String.prototype.split`
with separator "\n"): the empty content gives one empty line, and every
newline character starts a new line. -/
def splitLines : List Char → List (List Char)
  | [] => [[]]
  | c :: cs =>
    if c = '\n' then [] :: splitLines cs
    else
      match splitLines cs with
      | [] => [[c]]
      | l :: ls => (c :: l) :: ls

/-- Embedding of `trimmed.indexOf("=")` followed by the two slices around
the first `=`: returns the text before the first `=` and the text after
it, or `none` when the line has no `=` (the `eqIndex === -1` case of
`readEnvFile`). -/
def findEqSplit : List Char → Option (List Char × List Char)
  | [] => none
  | c :: cs =>
    if c = '=' then some ([], cs)
    else
      match findEqSplit cs with
      | none => none
      | some (pre, post) => some (c :: pre, post)

/-- The double-quote character used by the quote stripping of
`readEnvFile`. -/
def dquote : Char := '"'

/-- The single-quote character used by the quote stripping of
`readEnvFile`. -/
def squote : Char := Char.ofNat 39

/-- Embedding of the quote stripping of `readEnvFile`: when the value
starts and ends with `"` or starts and ends with `'`, it becomes
`value.slice(1, -1)` (drop the first and last character); otherwise it is
unchanged. -/
def stripQuotes (l : List Char) : List Char :=
  if (l.head? = some dquote ∧ l.getLast? = some dquote)
      ∨ (l.head? = some squote ∧ l.getLast? = some squote) then
    (l.drop 1).dropLast
  else l

/-- Embedding of `env[key] = value` on a JavaScript object represented as
an insertion-ordered association list: an existing key keeps its position
and gets the new value, a new key is appended at the end. -/
def upsert {α : Type} (l : List (String × α)) (k : String) (v : α) : List (String × α) :=
  match l with
  | [] => [(k, v)]
  | (k2, v2) :: rest => if k2 = k then (k, v) :: rest else (k2, v2) :: upsert rest k v

/-- Embedding of property lookup `obj[key]` on the association-list
representation of a JavaScript object. -/
def lookupKey {α : Type} (l : List (String × α)) (k : String) : Option α :=
  match l with
  | [] => none
  | (k2, v2) :: rest => if k2 = k then some v2 else lookupKey rest k

/-- Embedding of the per-line body of the `for` loop of `readEnvFile`:
trim the line, skip it when empty or starting with `#`, otherwise split at
the first `=`; when one exists, the key is the trimmed text before it and
the value the trimmed, quote-stripped text after it, stored with
overwrite-in-place semantics. -/
def parseEnvLine (env : List (String × String)) (line : List Char) : List (String × String) :=
  match trimChars line with
  | [] => env
  | c :: rest =>
    if c = '#' then env
    else
      match findEqSplit (c :: rest) with
      | none => env
      | some (pre, post) =>
        upsert env (String.mk (trimChars pre)) (String.mk (stripQuotes (trimChars post)))

/-- Embedding of the loop of `readEnvFile` over `content.split("\n")`. -/
def parseEnvContent (content : String) : List (String × String) :=
  (splitLines content.data).foldl parseEnvLine []

/-- Embedding of `readEnvFile`: the argument is the result of reading the
file (`none` when the file does not exist or cannot be read, which the
source catches), and the result is the environment-variable map.  The
function is total, mirroring that `readEnvFile` never throws to its
caller. -/
def readEnvFile (file : Option String) : List (String × String) :=
  match file with
  | none => []
  | some content => parseEnvContent content

/-- JavaScript truthiness of a string value: the empty string is falsy,
every other string is truthy. -/
def strTruthy (s : String) : Bool :=
  match s.data with
  | [] => false
  | _ :: _ => true

/-- Embedding of `arg.startsWith("-")` (a one-character prefix test on the
first character). -/
def argIsFlag (s : String) : Bool :=
  match s.data with
  | [] => false
  | c :: _ => c = '-'

/-- ANSI escape prefix `\x1b[0m` (the `colors.reset` constant). -/
def colorReset : String := "\x1b[0m"

/-- ANSI escape prefix `\x1b[31m` (the `colors.red` constant). -/
def colorRed : String := "\x1b[31m"

/-- ANSI escape prefix `\x1b[32m` (the `colors.green` constant). -/
def colorGreen : String := "\x1b[32m"

/-- ANSI escape prefix `\x1b[33m` (the `colors.yellow` constant). -/
def colorYellow : String := "\x1b[33m"

/-- ANSI escape prefix `\x1b[34m` (the `colors.blue` constant). -/
def colorBlue : String := "\x1b[34m"

/-- ANSI escape prefix `\x1b[1m` (the `colors.bold` constant). -/
def colorBold : String := "\x1b[1m"

/-- Embedding of the `c.error` message formatter. -/
def cError (msg : String) : String := colorRed ++ "✗" ++ colorReset ++ " " ++ msg

/-- Embedding of the `c.success` message formatter. -/
def cSuccess (msg : String) : String := colorGreen ++ "✓" ++ colorReset ++ " " ++ msg

/-- Embedding of the `c.warning` message formatter. -/
def cWarning (msg : String) : String := colorYellow ++ "⚠" ++ colorReset ++ " " ++ msg

/-- Embedding of the `c.info` message formatter. -/
def cInfo (msg : String) : String := colorBlue ++ "▸" ++ colorReset ++ " " ++ msg

/-- The horizontal bar of the `c.header` formatter. -/
def headerBar : String := "━━━━━━━━━━━━━━━━━━━━━━━━━━━━━━━━━━━━━━━━━━━━━━━━━━━━━━━━━━━━"

/-- Embedding of the `c.header` message formatter. -/
def cHeader (msg : String) : String :=
  "\n" ++ colorBlue ++ headerBar ++ colorReset ++ "\n" ++ colorBlue ++ "  " ++ msg
    ++ colorReset ++ "\n" ++ colorBlue ++ headerBar ++ colorReset ++ "\n"

/-- The single-quote character as a string (used by the directory-exists
error message). -/
def squoteS : String := String.mk [squote]

/-- The fixed list of deployment environments of the env-push step of
`createProject` (`const envTargets = ["production", "preview", "development"]`). -/
def envTargets : List String := ["production", "preview", "development"]

/-- Embedding of `addVercelEnvVar`: the whole `for` loop over the
environments runs inside one `try`; `pushOk env` tells whether the
`vercel env add` invocation for that environment succeeds.  The result is
the returned boolean together with the list of environments for which a
push was actually attempted: the first failing push throws, aborting the
loop and returning `false`. -/
def addVercelEnvVarRun (pushOk : String → Bool) (name value : String) :
    List String → Bool × List String
  | [] => (true, [])
  | env :: rest =>
    if pushOk env then
      let r := addVercelEnvVarRun pushOk name value rest
      (r.1, env :: r.2)
    else (false, [env])

/-- JSON values, the structured data model of the `package.json` manifest
read and rewritten by `createProject` (numbers restricted to integers,
which suffices for every manifest field the tool touches). -/
inductive Json where
  | str (s : String)
  | num (n : Int)
  | bool (b : Bool)
  | null
  | arr (elems : List Json)
  | obj (fields : List (String × Json))

/-- The new `dev` script installed by `createProject`. -/
def devScriptValue : String :=
  "bunx convex dev --once && concurrently -r bun:dev:web bun:dev:convex"

/-- The new `dev:convex` script installed by `createProject`. -/
def devConvexScriptValue : String := "bunx convex dev"

/-- The new `start` script installed by `createProject`. -/
def startScriptValue : String := "bun .output/server/index.mjs"

/-- Embedding of the three script assignments of `createProject` step 5:
`pkg.scripts.dev = ...`, `pkg.scripts["dev:convex"] = ...`,
`pkg.scripts.start = ...`, in source order. -/
def patchScripts (scripts : List (String × Json)) : List (String × Json) :=
  upsert (upsert (upsert scripts "dev" (Json.str devScriptValue))
      "dev:convex" (Json.str devConvexScriptValue))
    "start" (Json.str startScriptValue)

/-- Embedding of the manifest patch of `createProject` step 5 on the parsed
`package.json` object: the nested `scripts` object is patched in place;
when the manifest has no object-valued `scripts` field the property
assignments of the source would throw, modelled as `none`. -/
def patchPkg (pkg : List (String × Json)) : Option (List (String × Json)) :=
  match lookupKey pkg "scripts" with
  | some (Json.obj scripts) => some (upsert pkg "scripts" (Json.obj (patchScripts scripts)))
  | _ => none

/-- Opening brace as a string (for the JSON serializer). -/
def lbraceS : String := "\x7b"

/-- Closing brace as a string (for the JSON serializer). -/
def rbraceS : String := "\x7d"

/-- Indentation string of `n` spaces used by `JSON.stringify(_, null, 2)`. -/
def indentStr (n : Nat) : String := String.mk (List.replicate n ' ')

/-- Lower-case hexadecimal digit (for `\u00xx` escapes of the JSON string
serializer). -/
def hexDigit (n : Nat) : Char :=
  if n < 10 then Char.ofNat (48 + n) else Char.ofNat (87 + n)

/-- Escaping of one character inside a JSON string literal, as done by
`JSON.stringify`. -/
def escChar (c : Char) : String :=
  if c = dquote then "\\" ++ String.mk [dquote]
  else if c = '\\' then "\\\\"
  else if c = '\n' then "\\n"
  else if c = '\t' then "\\t"
  else if c = '\r' then "\\r"
  else if c = '\x08' then "\\b"
  else if c = '\x0c' then "\\f"
  else if c.toNat < 32 then "\\u00" ++ String.mk [hexDigit (c.toNat / 16), hexDigit (c.toNat % 16)]
  else String.mk [c]

/-- JSON string literal serialization (quote and escape). -/
def jsonQuote (s : String) : String :=
  String.mk [dquote] ++ String.join (s.data.map escChar) ++ String.mk [dquote]

mutual

/-- Embedding of `JSON.stringify(value, null, 2)` at the given current
indentation depth. -/
def serJson (ind : Nat) (j : Json) : String :=
  match j with
  | Json.str s => jsonQuote s
  | Json.num n => toString n
  | Json.bool b => cond b "true" "false"
  | Json.null => "null"
  | Json.arr es => serArr ind es
  | Json.obj fs => serObj ind fs
termination_by sizeOf j

/-- Array serialization of `JSON.stringify(_, null, 2)`. -/
def serArr (ind : Nat) (es : List Json) : String :=
  match es with
  | [] => "[]"
  | e :: rest => "[\n" ++ serArrItems (ind + 2) e rest ++ "\n" ++ indentStr ind ++ "]"
termination_by sizeOf es

/-- Comma-and-newline separated, indented array elements. -/
def serArrItems (ind : Nat) (e : Json) (rest : List Json) : String :=
  match rest with
  | [] => indentStr ind ++ serJson ind e
  | e2 :: rest2 => indentStr ind ++ serJson ind e ++ ",\n" ++ serArrItems ind e2 rest2
termination_by sizeOf e + sizeOf rest

/-- Object serialization of `JSON.stringify(_, null, 2)`. -/
def serObj (ind : Nat) (fs : List (String × Json)) : String :=
  match fs with
  | [] => lbraceS ++ rbraceS
  | (k, jv) :: rest =>
    lbraceS ++ "\n" ++ serObjItems (ind + 2) k jv rest ++ "\n" ++ indentStr ind ++ rbraceS
termination_by sizeOf fs

/-- Comma-and-newline separated, indented object members (the first member
given as its key and value). -/
def serObjItems (ind : Nat) (k : String) (jv : Json) (rest : List (String × Json)) : String :=
  match rest with
  | [] => indentStr ind ++ jsonQuote k ++ ": " ++ serJson ind jv
  | (k2, jv2) :: rest2 =>
    indentStr ind ++ jsonQuote k ++ ": " ++ serJson ind jv ++ ",\n" ++ serObjItems ind k2 jv2 rest2
termination_by sizeOf jv + sizeOf rest

end

/-- The file content written back by `createProject` step 5:
`JSON.stringify(pkg, null, 2) + "\n"` on the patched manifest (`none` when
the patch itself would throw). -/
def writtenManifest (pkg : List (String × Json)) : Option String :=
  (patchPkg pkg).map (fun p => serJson 0 (Json.obj p) ++ "\n")

/-- Keys of the `scripts` section of the patched manifest, in order (a
projection used to state claims about the patch result). -/
def scriptsKeysOf (pkg : List (String × Json)) : Option (List String) :=
  match patchPkg pkg with
  | none => none
  | some p =>
    match lookupKey p "scripts" with
    | some (Json.obj scripts) => some (scripts.map Prod.fst)
    | _ => none

/-- A string ends in exactly one trailing newline: its last character is a
newline and the character before it (when present) is not. -/
def endsInSingleNewline (s : String) : Prop :=
  s.data.getLast? = some '\n' ∧ s.data.dropLast.getLast? ≠ some '\n'


/-- Results of the four external prerequisite probes (`checkBun`,
`checkGitHub`, `checkConvex`, `checkVercel`), each already reduced to its
`ok` boolean: every probe catches its own failures and returns a record
with an `ok` field. -/
structure PrereqResults where
  bunOk : Bool
  ghOk : Bool
  convexOk : Bool
  vercelOk : Bool

/-- Embedding of `checkAllPrerequisites`: runs the four checks in source
order, downgrading `allGood` on each failure, and returns the aggregate
boolean together with the list of checks that were executed (in order).
No check is skipped, whatever the earlier results. -/
def checkAllPrerequisites (r : PrereqResults) : Bool × List String :=
  let executed1 := ["bun"]
  let allGood1 := if r.bunOk then true else false
  let executed2 := executed1 ++ ["gh"]
  let allGood2 := if r.ghOk then allGood1 else false
  let executed3 := executed2 ++ ["convex"]
  let allGood3 := if r.convexOk then allGood2 else false
  let executed4 := executed3 ++ ["vercel"]
  let allGood4 := if r.vercelOk then allGood3 else false
  (allGood4, executed4)

/-- Observable actions of the `createProject` pipeline: console prints,
external-tool invocations, file writes, the working-directory change and
process exit. -/
inductive Act where
  | print (msg : String)
  | runGenerator (projectName : String)
  | chdir (projectName : String)
  | bunAdd
  | writeViteConfig
  | writeVercelJson
  | writePackageJson (content : String)
  | bunInstall
  | gitInit
  | gitAdd
  | gitCommit
  | ghRepoCreate (projectName : String)
  | convexDevOnce
  | readEnvLocal
  | promptDeployKey
  | vercelLink
  | vercelEnvPush (name env : String)
  | exit (code : Nat)
deriving DecidableEq

/-- How a run of `createProject` ends: an explicit `process.exit`, an
uncaught exception propagating to the caller, or normal completion. -/
inductive RunOutcome where
  | exited (code : Nat)
  | thrown
  | completed
deriving DecidableEq

/-- Oracles for the outcomes of the external-world interactions of one
`createProject` run: whether the target directory exists, whether each
external command succeeds, the parsed `package.json` produced by the
generator (`none` when reading or parsing it would throw), the content of
`.env.local` (`none` when unreadable), the raw interactive deploy-key
answer, and per-(variable, environment) success of `vercel env add`. -/
structure Oracles where
  dirExists : Bool
  generatorOk : Bool
  bunAddOk : Bool
  pkgJson : Option (List (String × Json))
  bunInstallOk : Bool
  gitInitOk : Bool
  gitAddOk : Bool
  gitCommitOk : Bool
  ghRepoOk : Bool
  convexInitOk : Bool
  envFile : Option String
  deployKeyRaw : String
  vercelLinkOk : Bool
  pushOk : String → String → Bool

/-- The backend URL extracted in step 9 of `createProject`:
`envVars.VITE_CONVEX_URL || ""` after a successful `bunx convex dev
--once`, and the empty string when that command failed. -/
def convexUrlOf (o : Oracles) : String :=
  if o.convexInitOk then (lookupKey (readEnvFile o.envFile) "VITE_CONVEX_URL").getD ""
  else ""

/-- Warning printed when `VITE_CONVEX_URL` is absent from `.env.local`. -/
def urlManualMsg : String :=
  cWarning "VITE_CONVEX_URL not found. Add it manually in Vercel dashboard."

/-- Warning printed when the aggregated push of `VITE_CONVEX_URL` failed. -/
def urlAddFailedMsg : String :=
  cWarning "Could not add VITE_CONVEX_URL. Add it manually in Vercel dashboard."

/-- Warning printed when no deploy key was provided. -/
def keyManualMsg : String :=
  cWarning "No deploy key provided. Add CONVEX_DEPLOY_KEY manually in Vercel dashboard."

/-- Warning printed when the aggregated push of `CONVEX_DEPLOY_KEY`
failed. -/
def keyAddFailedMsg : String :=
  cWarning "Could not add CONVEX_DEPLOY_KEY. Add it manually in Vercel dashboard."

/-- Embedding of the environment-variable push stage of `createProject`
(the `if (vercelLinked)` block): for each of the two variables, when its
value is truthy the pushes of `addVercelEnvVar` are attempted and an
aggregate success or warning line is printed; otherwise a manual-entry
warning is printed for that variable.  When the Vercel link failed the
whole stage is replaced by the combined ACTION REQUIRED instructions. -/
def envPushStage (o : Oracles) (projectName convexUrl deployKey : String)
    (vercelLinked : Bool) : List Act :=
  if vercelLinked then
    [Act.print (cHeader "Adding Environment Variables to Vercel")] ++
    (if strTruthy convexUrl then
      let r := addVercelEnvVarRun (o.pushOk "VITE_CONVEX_URL") "VITE_CONVEX_URL" convexUrl envTargets
      [Act.print (cInfo "Adding VITE_CONVEX_URL...")]
        ++ r.2.map (fun e => Act.vercelEnvPush "VITE_CONVEX_URL" e)
        ++ [if r.1 then Act.print (cSuccess "VITE_CONVEX_URL added to Vercel")
            else Act.print urlAddFailedMsg]
    else [Act.print urlManualMsg]) ++
    (if strTruthy deployKey then
      let r := addVercelEnvVarRun (o.pushOk "CONVEX_DEPLOY_KEY") "CONVEX_DEPLOY_KEY" deployKey envTargets
      [Act.print (cInfo "Adding CONVEX_DEPLOY_KEY...")]
        ++ r.2.map (fun e => Act.vercelEnvPush "CONVEX_DEPLOY_KEY" e)
        ++ [if r.1 then Act.print (cSuccess "CONVEX_DEPLOY_KEY added to Vercel")
            else Act.print keyAddFailedMsg]
    else
      [Act.print keyManualMsg,
       Act.print "\n  1. Go to: https://vercel.com/dashboard",
       Act.print ("  2. Select: " ++ projectName ++ " → Settings → Environment Variables"),
       Act.print "  3. Add CONVEX_DEPLOY_KEY\n"])
  else
    [Act.print "",
     Act.print (cWarning "ACTION REQUIRED: Add Environment Variables in Vercel"),
     Act.print "\n  1. Go to: https://vercel.com/dashboard",
     Act.print ("  2. Select: " ++ projectName ++ " → Settings → Environment Variables"),
     Act.print "  3. Add:",
     Act.print "     - CONVEX_DEPLOY_KEY (from Convex dashboard)",
     Act.print "     - VITE_CONVEX_URL (from .env.local)\n"]

/-- The trace and outcome of the early directory-existence guard of
`createProject`: the error line and `process.exit(1)`. -/
def dirExistsTrace (projectName : String) : List Act × RunOutcome :=
  ([Act.print (cError ("Directory " ++ squoteS ++ projectName ++ squoteS ++ " already exists.")),
    Act.exit 1], RunOutcome.exited 1)

/-- Embedding of `createProject` as the sequence of observable actions of
one run, given oracles for the external world.  Unguarded external calls
that fail end the run with `RunOutcome.thrown` (the exception propagates
to `main`); the guarded ones only change the printed messages. -/
def createProject (o : Oracles) (projectName : String) : List Act × RunOutcome :=
  if o.dirExists then dirExistsTrace projectName
  else
    let t1 := [Act.print (cHeader "Creating Project from Template"),
               Act.print (cInfo "Running create-convex with tanstack-start template..."),
               Act.runGenerator projectName]
    if !o.generatorOk then (t1, RunOutcome.thrown) else
    let t2 := t1 ++ [Act.print (cSuccess "Project created"),
               Act.chdir projectName,
               Act.print (cHeader "Adding Nitro for Vercel"),
               Act.print (cInfo "Installing nitro-nightly..."),
               Act.bunAdd]
    if !o.bunAddOk then (t2, RunOutcome.thrown) else
    let t3 := t2 ++ [Act.print (cSuccess "Nitro installed"),
               Act.print (cHeader "Configuring Vite"),
               Act.print (cInfo "Adding Nitro plugin to vite.config.ts..."),
               Act.writeViteConfig,
               Act.print (cSuccess "vite.config.ts configured"),
               Act.print (cHeader "Configuring Vercel"),
               Act.print (cInfo "Creating vercel.json..."),
               Act.writeVercelJson,
               Act.print (cSuccess "vercel.json created"),
               Act.print (cHeader "Updating Scripts for Bun"),
               Act.print (cInfo "Patching package.json scripts...")]
    match o.pkgJson with
    | none => (t3, RunOutcome.thrown)
    | some pkg =>
      match patchPkg pkg with
      | none => (t3, RunOutcome.thrown)
      | some p =>
        let t4 := t3 ++ [Act.writePackageJson (serJson 0 (Json.obj p) ++ "\n"),
                   Act.print (cSuccess "package.json updated"),
                   Act.print (cHeader "Installing Dependencies"),
                   Act.print (cInfo "Running bun install..."),
                   Act.bunInstall]
        if !o.bunInstallOk then (t4, RunOutcome.thrown) else
        let t5 := t4 ++ [Act.print (cSuccess "Dependencies installed"),
                   Act.print (cHeader "Initializing Git"),
                   Act.print (cInfo "Initializing git repository..."),
                   Act.gitInit]
        if !o.gitInitOk then (t5, RunOutcome.thrown) else
        let t6 := t5 ++ [Act.gitAdd]
        if !o.gitAddOk then (t6, RunOutcome.thrown) else
        let t7 := t6 ++ [Act.gitCommit]
        if !o.gitCommitOk then (t7, RunOutcome.thrown) else
        let t8 := t7 ++ [Act.print (cSuccess "Git repository initialized"),
                   Act.print (cHeader "Creating GitHub Repository"),
                   Act.print (cInfo "Creating GitHub repository..."),
                   Act.ghRepoCreate projectName] ++
                  (if o.ghRepoOk then [Act.print (cSuccess "GitHub repository created and pushed")]
                   else [Act.print (cWarning "Could not create GitHub repository automatically."),
                         Act.print ("  Run manually: gh repo create " ++ projectName
                           ++ " --private --source=. --remote=origin --push\n")])
        let t9 := t8 ++ [Act.print (cHeader "Setting Up Convex"),
                   Act.print (cInfo "Creating Convex project..."),
                   Act.convexDevOnce] ++
                  (if o.convexInitOk then
                     [Act.print (cSuccess "Convex project initialized"), Act.readEnvLocal] ++
                     (let url := (lookupKey (readEnvFile o.envFile) "VITE_CONVEX_URL").getD ""
                      if strTruthy url then [Act.print (cSuccess ("Found VITE_CONVEX_URL: " ++ url))]
                      else [])
                   else [Act.print (cWarning "Could not initialize Convex automatically. Run: bunx convex dev\n")])
        let deployKey := trimStr o.deployKeyRaw
        let t10 := t9 ++ [Act.print (cHeader "Convex Deploy Key"),
                   Act.print (cInfo "A deploy key is required for Vercel deployments.\n"),
                   Act.print "  1. Go to: https://dashboard.convex.dev",
                   Act.print "  2. Select your project → Settings → Deploy Keys",
                   Act.print "  3. Create a new deploy key and copy it\n",
                   Act.promptDeployKey,
                   Act.print (cHeader "Setting Up Vercel"),
                   Act.print (cInfo "Linking to Vercel..."),
                   Act.vercelLink] ++
                  (if o.vercelLinkOk then [Act.print (cSuccess "Vercel project linked")]
                   else [Act.print (cWarning "Could not link Vercel automatically. Run: bunx vercel link\n")])
        let t11 := t10 ++ envPushStage o projectName (convexUrlOf o) deployKey o.vercelLinkOk
        let t12 := t11 ++ [Act.print (cHeader "Setup Complete!"),
                   Act.print ("  Project: " ++ projectName ++ "\n"),
                   Act.print ("  " ++ colorGreen ++ "Quick Start:" ++ colorReset),
                   Act.print ("    cd " ++ projectName),
                   Act.print "    bun run dev\n",
                   Act.print ("  " ++ colorGreen ++ "Deploy:" ++ colorReset),
                   Act.print "    bunx vercel --prod\n",
                   Act.print (cSuccess "Happy coding!")]
        (t12, RunOutcome.completed)

/-- The (variable, environment) pairs of the pushes attempted in a trace,
in order. -/
def pushesOf (tr : List Act) : List (String × String) :=
  tr.filterMap (fun a =>
    match a with
    | Act.vercelEnvPush n e => some (n, e)
    | _ => none)

/-- Actions that do something beyond printing or exiting: invoking the
generator or another external tool, changing directory, writing a file,
prompting. -/
def isBootstrapAction (a : Act) : Bool :=
  match a with
  | Act.print _ => false
  | Act.exit _ => false
  | _ => true

/-- Substring containment on strings (list-infix of the character data). -/
def containsSub (s sub : String) : Prop :=
  sub.data <:+: s.data

/-- Name validation regular expression of `main`:
`^[a-zA-Z][a-zA-Z0-9_-]*$` — first character an ASCII letter. -/
def isNameStart (c : Char) : Bool :=
  ('a' ≤ c && c ≤ 'z') || ('A' ≤ c && c ≤ 'Z')

/-- Name validation regular expression of `main`: later characters are
ASCII letters, digits, underscore or hyphen. -/
def isNameChar (c : Char) : Bool :=
  isNameStart c || ('0' ≤ c && c ≤ '9') || c = '_' || c = '-'

/-- Embedding of `/^[a-zA-Z][a-zA-Z0-9_-]*$/.test(projectName)`. -/
def nameValid (s : String) : Bool :=
  match s.data with
  | [] => false
  | c :: cs => isNameStart c && cs.all isNameChar

/-- How `main` proceeds after parsing its arguments: print help and exit
with the given code, reject the project name and exit 1, or accept the
name and continue to the prerequisite checks and `createProject`. -/
inductive MainOutcome where
  | helpExit (code : Nat)
  | invalidNameExit
  | proceed (name : String)
deriving DecidableEq

/-- Exit status of the outcomes that terminate before bootstrapping
(`none` for `proceed`, which continues the run). -/
def outcomeExitCode : MainOutcome → Option Nat
  | MainOutcome.helpExit code => some code
  | MainOutcome.invalidNameExit => some 1
  | MainOutcome.proceed _ => none

/-- Embedding of the argument handling of `main`: `--help`/`-h` detection,
the first non-flag argument as project-name candidate (JavaScript
truthiness: an empty-string candidate counts as missing), the help/exit
path with its code, and the project-name regular-expression check. -/
def mainDecide (args : List String) : MainOutcome :=
  let showHelp := args.contains "--help" || args.contains "-h"
  let projectName := args.find? (fun a => !argIsFlag a)
  let hasName := match projectName with
    | some s => strTruthy s
    | none => false
  if showHelp || !hasName then MainOutcome.helpExit (if hasName then 0 else 1)
  else
    match projectName with
    | some s => if nameValid s then MainOutcome.proceed s else MainOutcome.invalidNameExit
    | none => MainOutcome.helpExit 1

/-- Concrete oracle valuation in which every external interaction succeeds
except the `vercel env add` push to the "production" environment. -/
def oFailProd : Oracles :=
  { dirExists := false, generatorOk := true, bunAddOk := true, pkgJson := none,
    bunInstallOk := true, gitInitOk := true, gitAddOk := true, gitCommitOk := true,
    ghRepoOk := true, convexInitOk := true, envFile := none, deployKeyRaw := "",
    vercelLinkOk := true, pushOk := fun _ env => !(env == "production") }

/-- Concrete oracle valuation in which the target directory already exists
(and everything else would succeed). -/
def oExistsDir : Oracles :=
  { dirExists := true, generatorOk := true, bunAddOk := true, pkgJson := none,
    bunInstallOk := true, gitInitOk := true, gitAddOk := true, gitCommitOk := true,
    ghRepoOk := true, convexInitOk := true, envFile := none, deployKeyRaw := "",
    vercelLinkOk := true, pushOk := fun _ _ => true }

/-- Concrete oracle valuation in which every external interaction
succeeds. -/
def oAllOk : Oracles :=
  { dirExists := false, generatorOk := true, bunAddOk := true,
    pkgJson := some [("scripts", Json.obj [("dev", Json.str "old")])],
    bunInstallOk := true, gitInitOk := true, gitAddOk := true, gitCommitOk := true,
    ghRepoOk := true, convexInitOk := true, envFile := none, deployKeyRaw := "key",
    vercelLinkOk := true, pushOk := fun _ _ => true }

/-! Helper lemmas (shared). -/

theorem dropWhile_append_all {α : Type} {p : α → Bool} {l1 : List α} (l2 : List α)
    (h : ∀ c ∈ l1, p c = true) :
    (l1 ++ l2).dropWhile p = l2.dropWhile p := by
  induction l1 with
  | nil => rfl
  | cons a l ih =>
    have ha : p a = true := h a (List.mem_cons_self a l)
    simp only [List.cons_append, List.dropWhile_cons_of_pos ha]
    exact ih (fun c hc => h c (List.mem_cons_of_mem a hc))

theorem dropWhile_eq_self_of_head {α : Type} {p : α → Bool} {l : List α}
    (h : ∀ c, l.head? = some c → p c = false) :
    l.dropWhile p = l := by
  cases l with
  | nil => rfl
  | cons a l =>
    have ha : p a = false := h a rfl
    simp [List.dropWhile_cons, ha]

theorem dropWhile_eq_nil_of_all {α : Type} {p : α → Bool} {l : List α}
    (h : ∀ c ∈ l, p c = true) :
    l.dropWhile p = [] := by
  have := @dropWhile_append_all α p l [] h
  simpa using this

theorem trimChars_sandwich (wsl wsr mid : List Char)
    (hl : ∀ c ∈ wsl, isSpaceChar c = true)
    (hr : ∀ c ∈ wsr, isSpaceChar c = true)
    (hmh : ∀ c, mid.head? = some c → isSpaceChar c = false)
    (hml : ∀ c, mid.getLast? = some c → isSpaceChar c = false) :
    trimChars (wsl ++ mid ++ wsr) = mid := by
  unfold trimChars
  rw [List.append_assoc, dropWhile_append_all (mid ++ wsr) hl]
  cases mid with
  | nil =>
    simp only [List.nil_append]
    rw [dropWhile_eq_nil_of_all hr]
    rfl
  | cons m ms =>
    have hm : isSpaceChar m = false := hmh m rfl
    rw [List.cons_append, List.dropWhile_cons_of_neg (by simp [hm])]
    rw [← List.cons_append, List.reverse_append]
    rw [dropWhile_append_all ((m :: ms).reverse) (fun c hc => hr c (List.mem_reverse.mp hc))]
    rw [dropWhile_eq_self_of_head (fun c hc => hml c (by rwa [← List.head?_reverse]))]
    exact List.reverse_reverse _

theorem trimChars_subset {l : List Char} {c : Char} (h : c ∈ trimChars l) : c ∈ l := by
  unfold trimChars at h
  rw [List.mem_reverse] at h
  have h1 := (List.dropWhile_sublist (l := (l.dropWhile isSpaceChar).reverse) (p := isSpaceChar)).subset h
  rw [List.mem_reverse] at h1
  exact (List.dropWhile_sublist (l := l) (p := isSpaceChar)).subset h1

theorem findEqSplit_no_eq :
    ∀ {l pre post : List Char}, findEqSplit l = some (pre, post) → ('=' : Char) ∉ pre := by
  intro l
  induction l with
  | nil => intro pre post h; simp [findEqSplit] at h
  | cons c cs ih =>
    intro pre post h
    by_cases hc : c = '='
    · subst hc
      simp [findEqSplit] at h
      rw [h.1]
      simp
    · rw [findEqSplit, if_neg hc] at h
      cases he : findEqSplit cs with
      | none => rw [he] at h; simp at h
      | some pq =>
        rw [he] at h
        obtain ⟨pre2, post2⟩ := pq
        simp at h
        rw [← h.1]
        intro hmem
        rcases List.mem_cons.mp hmem with h1 | h1
        · exact hc h1.symm
        · exact ih he h1

theorem findEqSplit_append (pre post : List Char) (h : ('=' : Char) ∉ pre) :
    findEqSplit (pre ++ '=' :: post) = some (pre, post) := by
  induction pre with
  | nil => simp [findEqSplit]
  | cons c cs ih =>
    have hc : c ≠ '=' := by
      intro hc; exact h (hc ▸ List.mem_cons_self c cs)
    rw [List.cons_append, findEqSplit, if_neg (fun hcc => hc hcc)]
    rw [ih (fun hm => h (List.mem_cons_of_mem c hm))]

theorem splitLines_no_newline : ∀ (l : List Char), ('\n' : Char) ∉ l → splitLines l = [l] := by
  intro l
  induction l with
  | nil => intro _; rfl
  | cons c cs ih =>
    intro h
    have hc : c ≠ '\n' := fun hc => h (hc ▸ List.mem_cons_self c cs)
    have hcs := ih (fun hm => h (List.mem_cons_of_mem c hm))
    rw [splitLines, if_neg hc, hcs]

theorem mem_upsert {α : Type} :
    ∀ {l : List (String × α)} {k : String} {v : α} {kv : String × α},
      kv ∈ upsert l k v → kv ∈ l ∨ kv = (k, v) := by
  intro l
  induction l with
  | nil => intro k v kv h; simp [upsert] at h; right; exact h
  | cons p rest ih =>
    intro k v kv h
    obtain ⟨k2, v2⟩ := p
    rw [upsert] at h
    by_cases he : k2 = k
    · rw [if_pos he] at h
      rcases List.mem_cons.mp h with h1 | h1
      · right; exact h1
      · left; exact List.mem_cons_of_mem _ h1
    · rw [if_neg he] at h
      rcases List.mem_cons.mp h with h1 | h1
      · left; exact h1 ▸ List.mem_cons_self _ _
      · rcases ih h1 with h2 | h2
        · left; exact List.mem_cons_of_mem _ h2
        · right; exact h2

theorem parseEnvLine_keys {env : List (String × String)} (line : List Char)
    (h : ∀ kv ∈ env, ('=' : Char) ∉ kv.1.data) :
    ∀ kv ∈ parseEnvLine env line, ('=' : Char) ∉ kv.1.data := by
  intro kv hkv
  unfold parseEnvLine at hkv
  split at hkv
  · exact h kv hkv
  · split at hkv
    · exact h kv hkv
    · split at hkv
      · exact h kv hkv
      · next pre post hfe =>
          rcases mem_upsert hkv with h1 | h1
          · exact h kv h1
          · rw [h1]
            intro hmem
            exact findEqSplit_no_eq hfe (trimChars_subset hmem)

theorem foldl_parseEnvLine_keys (lines : List (List Char)) :
    ∀ (env : List (String × String)), (∀ kv ∈ env, ('=' : Char) ∉ kv.1.data) →
      ∀ kv ∈ lines.foldl parseEnvLine env, ('=' : Char) ∉ kv.1.data := by
  induction lines with
  | nil => intro env h kv hkv; exact h kv hkv
  | cons line rest ih =>
    intro env h kv hkv
    exact ih (parseEnvLine env line) (fun kv2 h2 => parseEnvLine_keys line h kv2 h2) kv hkv

theorem addVercelEnvVarRun_spec (pushOk : String → Bool) (name value : String) :
    ∀ envs : List String,
      addVercelEnvVarRun pushOk name value envs
        = (envs.all pushOk, envs.takeWhile pushOk ++ (envs.dropWhile pushOk).take 1) := by
  intro envs
  induction envs with
  | nil => rfl
  | cons env rest ih =>
    rw [addVercelEnvVarRun]
    by_cases hp : pushOk env
    · rw [if_pos hp, ih]
      simp [List.all_cons, hp, List.takeWhile_cons, List.dropWhile_cons]
    · rw [if_neg hp]
      rw [Bool.not_eq_true] at hp
      simp [List.all_cons, hp, List.takeWhile_cons, List.dropWhile_cons]

/-! Claim theorems. -/

/-- C1 (counterexample): with pushes succeeding for every environment
except "production", the push stage for `VITE_CONVEX_URL` attempts only
the "production" push — the failure of that one push aborts the pushes
for the remaining environments — and the aggregated warning for the
variable is printed even though the pushes for "preview" and
"development" did not fail (they were never attempted and would have
succeeded).  This refutes both the claimed per-environment independence
and the claimed "warning exactly when all pushes failed". -/
theorem c1_counterexample :
    oFailProd.pushOk "VITE_CONVEX_URL" "production" = false ∧
    oFailProd.pushOk "VITE_CONVEX_URL" "preview" = true ∧
    oFailProd.pushOk "VITE_CONVEX_URL" "development" = true ∧
    pushesOf (envPushStage oFailProd "app" "https://x.convex.cloud" "" true)
      = [("VITE_CONVEX_URL", "production")] ∧
    Act.print urlAddFailedMsg ∈ envPushStage oFailProd "app" "https://x.convex.cloud" "" true := by
  decide

/-- C1 (amended): the environment pushes of one variable run sequentially
inside a single guarded block, so `addVercelEnvVar` attempts the pushes in
order up to and including the first failing one (aborting the rest), and
returns `false` — triggering the single aggregated warning in the caller
— exactly when not every environment push succeeded (equivalently, when
the first failure exists), not only when all of them failed. -/
theorem c1_amended_push_loop (pushOk : String → Bool) (name value : String) (envs : List String) :
    addVercelEnvVarRun pushOk name value envs
      = (envs.all pushOk, envs.takeWhile pushOk ++ (envs.dropWhile pushOk).take 1) :=
  addVercelEnvVarRun_spec pushOk name value envs

/-- C3 (counterexample): on the single-line content `=x`, the map returned
by `readEnvFile` has the empty string as its only key, refuting the
claim's "every key is a non-empty string" (the part forbidding a line
beginning with `=` from producing an empty key). -/
theorem c3_counterexample :
    (readEnvFile (some "=x")).map Prod.fst = [""] := by
  decide

/-- C3 (amended): every key of the map returned by `readEnvFile` contains
no `=` character; a key may however be empty (a processed line whose text
before the first `=` trims to nothing yields the empty key). -/
theorem c3_keys_no_eq (content : String) (k : String)
    (h : k ∈ (readEnvFile (some content)).map Prod.fst) : ('=' : Char) ∉ k.data := by
  rw [List.mem_map] at h
  obtain ⟨kv, hkv, hk⟩ := h
  rw [← hk]
  exact foldl_parseEnvLine_keys (splitLines content.data) [] (by simp) kv hkv

/-- Witness for `c3_keys_no_eq` at the concrete content `A=1` and key
`A`. -/
theorem c3_keys_no_eq_witness :
    ("A" ∈ (readEnvFile (some "A=1")).map Prod.fst) ∧ ('=' : Char) ∉ "A".data :=
  ⟨by decide, c3_keys_no_eq "A=1" "A" (by decide)⟩

/-- C4: on the six-line input `FOO=bar`, `# comment`, `BAZ="qux"`, empty
line, `BAD_LINE`, `FOO=baz`, the parser returns exactly the map
`{FOO: "baz", BAZ: "qux"}`: the later duplicate overwrites the earlier
value, the comment line, the empty line and the `=`-free line are
skipped, and the matching double quotes around `qux` are stripped. -/
theorem c4_parser_example :
    readEnvFile (some "FOO=bar\n# comment\nBAZ=\"qux\"\n\nBAD_LINE\nFOO=baz")
      = [("FOO", "baz"), ("BAZ", "qux")] := by
  decide

/-- C6: `checkAllPrerequisites` returns `true` exactly when all four
probe results are ok, and in every run the four checks are executed, in
order, regardless of earlier failures. -/
theorem c6_check_all (r : PrereqResults) :
    (checkAllPrerequisites r).1 = (r.bunOk && r.ghOk && r.convexOk && r.vercelOk) ∧
    (checkAllPrerequisites r).2 = ["bun", "gh", "convex", "vercel"] := by
  obtain ⟨b, g, c, v⟩ := r
  cases b <;> cases g <;> cases c <;> cases v <;> exact ⟨rfl, rfl⟩

/-- C9: when the env file cannot be read (nonexistent or unreadable path,
the `none` case of the read result), `readEnvFile` returns the empty map;
the embedding is a total function, mirroring that the source catches every
read error and never throws to its caller. -/
theorem c9_unreadable_empty : readEnvFile none = [] := rfl

/-- C7: the project name `s`, passed as the only argument, is accepted by
`main` (the run proceeds past validation with that name) exactly when it
matches `^[a-zA-Z][a-zA-Z0-9_-]*$`; every other name — empty, starting
with a digit, hyphen or underscore, or containing spaces, slashes or any
other character outside the class — makes `main` terminate with exit
status 1 before any bootstrapping. -/
theorem c7_name_validation (s : String) :
    (nameValid s = true ∧ mainDecide [s] = MainOutcome.proceed s) ∨
    (nameValid s = false ∧ outcomeExitCode (mainDecide [s]) = some 1) := by
  obtain ⟨l⟩ := s
  cases l with
  | nil =>
    right
    exact ⟨rfl, by decide⟩
  | cons c cs =>
    by_cases hdash : c = '-'
    · right
      subst hdash
      refine ⟨?_, ?_⟩
      · show (isNameStart '-' && cs.all isNameChar) = false
        have h1 : isNameStart '-' = false := by decide
        simp [h1]
      · have hflag : argIsFlag (String.mk ('-' :: cs)) = true := rfl
        simp [mainDecide, List.find?, hflag, outcomeExitCode]
    · have hflag : argIsFlag (String.mk (c :: cs)) = false := by
        show decide (c = '-') = false
        simp [hdash]
      have hne1 : String.mk (c :: cs) ≠ "--help" := by
        intro he
        apply hdash
        have h2 := congrArg (fun t => t.data.head?) he
        have h3 : "--help".data.head? = some '-' := by decide
        simp only [h3] at h2
        exact Option.some.injEq _ _ ▸ (by simpa using h2)
      have hne2 : String.mk (c :: cs) ≠ "-h" := by
        intro he
        apply hdash
        have h2 := congrArg (fun t => t.data.head?) he
        have h3 : "-h".data.head? = some '-' := by decide
        simp only [h3] at h2
        simpa using h2
      have hb1 : (String.mk (c :: cs) == "--help") = false := beq_eq_false_iff_ne.mpr hne1
      have hb2 : (String.mk (c :: cs) == "-h") = false := beq_eq_false_iff_ne.mpr hne2
      have hb1s : ("--help" == String.mk (c :: cs)) = false := beq_eq_false_iff_ne.mpr (Ne.symm hne1)
      have hb2s : ("-h" == String.mk (c :: cs)) = false := beq_eq_false_iff_ne.mpr (Ne.symm hne2)
      have htruthy : strTruthy (String.mk (c :: cs)) = true := rfl
      by_cases hv : nameValid (String.mk (c :: cs)) = true
      · left
        refine ⟨hv, ?_⟩
        simp [mainDecide, List.find?, List.contains, List.elem, hflag, htruthy,
          hb1, hb2, hb1s, hb2s, hv]
      · right
        rw [Bool.not_eq_true] at hv
        refine ⟨hv, ?_⟩
        simp [mainDecide, List.find?, List.contains, List.elem, hflag, htruthy,
          hb1, hb2, hb1s, hb2s, hv, outcomeExitCode]

theorem takeWhile_eq_self_of_all {α : Type} {p : α → Bool} {l : List α}
    (h : ∀ c ∈ l, p c = true) : l.takeWhile p = l := by
  have h2 := List.takeWhile_append_dropWhile (p := p) (l := l)
  rw [dropWhile_eq_nil_of_all h] at h2
  simpa using h2

theorem strDataAppend (s t : String) : (s ++ t).data = s.data ++ t.data := rfl

theorem infix_append_left {α : Type} {l m : List α} (n : List α) (h : l <:+: m) :
    l <:+: n ++ m := by
  obtain ⟨s, t, ht⟩ := h
  exact ⟨n ++ s, t, by rw [← ht]; simp⟩

/-- C5: in the env-push stage of `createProject`, with the Vercel link
successful, an empty backend URL, a non-empty deploy key and the deploy
key pushes succeeding, the stage attempts pushes only for
`CONVEX_DEPLOY_KEY`, across exactly the three environments production,
preview, development (in that order), performs no push for
`VITE_CONVEX_URL`, and prints manual-entry instructions only for the URL
variable (neither manual-entry nor failure instructions appear for the
deploy key). -/
theorem c5_push_deploy_key_only (o : Oracles) (pn dk : String)
    (hdk : strTruthy dk = true)
    (hpush : ∀ e ∈ envTargets, o.pushOk "CONVEX_DEPLOY_KEY" e = true) :
    pushesOf (envPushStage o pn "" dk true)
      = [("CONVEX_DEPLOY_KEY", "production"), ("CONVEX_DEPLOY_KEY", "preview"),
         ("CONVEX_DEPLOY_KEY", "development")] ∧
    Act.print urlManualMsg ∈ envPushStage o pn "" dk true ∧
    Act.print keyManualMsg ∉ envPushStage o pn "" dk true ∧
    Act.print keyAddFailedMsg ∉ envPushStage o pn "" dk true := by
  have hrun : addVercelEnvVarRun (o.pushOk "CONVEX_DEPLOY_KEY") "CONVEX_DEPLOY_KEY" dk envTargets
      = (true, envTargets) := by
    rw [addVercelEnvVarRun_spec]
    rw [dropWhile_eq_nil_of_all hpush, takeWhile_eq_self_of_all hpush, List.all_eq_true.mpr hpush]
    simp
  have hurl : strTruthy "" = false := rfl
  have htr : envPushStage o pn "" dk true
      = [Act.print (cHeader "Adding Environment Variables to Vercel"),
         Act.print urlManualMsg,
         Act.print (cInfo "Adding CONVEX_DEPLOY_KEY..."),
         Act.vercelEnvPush "CONVEX_DEPLOY_KEY" "production",
         Act.vercelEnvPush "CONVEX_DEPLOY_KEY" "preview",
         Act.vercelEnvPush "CONVEX_DEPLOY_KEY" "development",
         Act.print (cSuccess "CONVEX_DEPLOY_KEY added to Vercel")] := by
    rw [envPushStage]
    rw [if_pos rfl]
    rw [hurl, hdk]
    simp only [envTargets] at hrun
    simp [hrun, envTargets]
  rw [htr]
  exact ⟨by decide, by decide, by decide, by decide⟩

/-- Witness for `c5_push_deploy_key_only` at the all-success oracle,
project name `myapp` and deploy key `key`. -/
theorem c5_push_deploy_key_only_witness :
    strTruthy "key" = true ∧
    (∀ e ∈ envTargets, oAllOk.pushOk "CONVEX_DEPLOY_KEY" e = true) ∧
    (pushesOf (envPushStage oAllOk "myapp" "" "key" true)
      = [("CONVEX_DEPLOY_KEY", "production"), ("CONVEX_DEPLOY_KEY", "preview"),
         ("CONVEX_DEPLOY_KEY", "development")] ∧
    Act.print urlManualMsg ∈ envPushStage oAllOk "myapp" "" "key" true ∧
    Act.print keyManualMsg ∉ envPushStage oAllOk "myapp" "" "key" true ∧
    Act.print keyAddFailedMsg ∉ envPushStage oAllOk "myapp" "" "key" true) :=
  ⟨rfl, by decide, c5_push_deploy_key_only oAllOk "myapp" "key" rfl (by decide)⟩

/-- C8: when the target directory already exists, `createProject` prints
one error line containing "already exists" and exits with status 1; the
trace contains no generator invocation, no directory change, no file
write, no prompt and no other external action. -/
theorem c8_existing_dir_exits (o : Oracles) (pn : String) (h : o.dirExists = true) :
    createProject o pn = dirExistsTrace pn ∧
    containsSub (cError ("Directory " ++ squoteS ++ pn ++ squoteS ++ " already exists.")) "already exists" ∧
    (createProject o pn).1.all (fun a => !isBootstrapAction a) = true := by
  have h1 : createProject o pn = dirExistsTrace pn := by rw [createProject, if_pos h]
  refine ⟨h1, ?_, ?_⟩
  · unfold containsSub cError
    simp only [strDataAppend, List.append_assoc]
    apply infix_append_left
    apply infix_append_left
    apply infix_append_left
    apply infix_append_left
    apply infix_append_left
    apply infix_append_left
    apply infix_append_left
    apply infix_append_left
    exact ⟨[' '], ['.'], by decide⟩
  · rw [h1]; rfl

/-- Witness for `c8_existing_dir_exits` at the directory-exists oracle and
project name `myapp`. -/
theorem c8_existing_dir_exits_witness :
    oExistsDir.dirExists = true ∧
    (createProject oExistsDir "myapp" = dirExistsTrace "myapp" ∧
     containsSub (cError ("Directory " ++ squoteS ++ "myapp" ++ squoteS ++ " already exists.")) "already exists" ∧
     (createProject oExistsDir "myapp").1.all (fun a => !isBootstrapAction a) = true) :=
  ⟨rfl, c8_existing_dir_exits oExistsDir "myapp" rfl⟩

theorem lookupKey_upsert_self {α : Type} :
    ∀ (l : List (String × α)) (k : String) (v : α), lookupKey (upsert l k v) k = some v := by
  intro l
  induction l with
  | nil => intro k v; simp [upsert, lookupKey]
  | cons p rest ih =>
    intro k v
    obtain ⟨k2, v2⟩ := p
    rw [upsert]
    by_cases he : k2 = k
    · rw [if_pos he, lookupKey, if_pos rfl]
    · rw [if_neg he, lookupKey, if_neg he, ih]

theorem lookupKey_upsert_ne {α : Type} :
    ∀ (l : List (String × α)) (k k2 : String) (v : α), k2 ≠ k →
      lookupKey (upsert l k v) k2 = lookupKey l k2 := by
  intro l
  induction l with
  | nil =>
    intro k k2 v h
    have h2 : ¬ (k = k2) := fun hh => h (Eq.symm hh)
    simp [upsert, lookupKey, h2]
  | cons p rest ih =>
    intro k k2 v h
    obtain ⟨k3, v3⟩ := p
    have h2 : ¬ (k = k2) := fun hh => h (Eq.symm hh)
    rw [upsert]
    by_cases he : k3 = k
    · rw [if_pos he, lookupKey, if_neg h2, lookupKey, he, if_neg h2]
    · rw [if_neg he, lookupKey, lookupKey]
      by_cases he2 : k3 = k2
      · rw [if_pos he2, if_pos he2]
      · rw [if_neg he2, if_neg he2, ih _ _ _ h]

theorem upsert_ne_nil {α : Type} (l : List (String × α)) (k : String) (v : α) :
    upsert l k v ≠ [] := by
  cases l with
  | nil => simp [upsert]
  | cons p rest =>
    obtain ⟨k2, v2⟩ := p
    rw [upsert]
    by_cases he : k2 = k
    · rw [if_pos he]; simp
    · rw [if_neg he]; simp

theorem serJson_obj (ind : Nat) (fs : List (String × Json)) :
    serJson ind (Json.obj fs) = serObj ind fs := by
  rw [serJson]

theorem serObj_ends (ind : Nat) (fs : List (String × Json)) :
    ∃ t, serObj ind fs = t ++ rbraceS := by
  cases fs with
  | nil => exact ⟨lbraceS, by rw [serObj]⟩
  | cons f rest =>
    obtain ⟨k, jv⟩ := f
    exact ⟨lbraceS ++ "\n" ++ serObjItems (ind + 2) k jv rest ++ "\n" ++ indentStr ind,
      by rw [serObj]⟩

theorem endsInSingleNewline_of_brace (t : String) :
    endsInSingleNewline (t ++ rbraceS ++ "\n") := by
  unfold endsInSingleNewline
  have hnl : "\n".data = ['\n'] := rfl
  have hbr : rbraceS.data = [Char.ofNat 125] := by decide
  constructor
  · rw [strDataAppend, hnl, List.getLast?_concat]
  · rw [strDataAppend, strDataAppend, hnl, hbr]
    rw [List.dropLast_concat, List.getLast?_concat]
    intro hcontra
    have := Option.some.inj hcontra
    exact absurd this (by decide)

/-- C2 (counterexample): for the manifest whose only field is
`"scripts": {"dev": "old"}`, the scripts section after the patch step has
exactly the three keys `dev`, `dev:convex`, `start` — three keys, not the
four the claim asserts (the source assigns only three script entries). -/
theorem c2_counterexample :
    scriptsKeysOf [("scripts", Json.obj [("dev", Json.str "old")])]
      = some ["dev", "dev:convex", "start"] ∧
    (["dev", "dev:convex", "start"] : List String).length = 3 := by
  exact ⟨by decide, rfl⟩

/-- C2 (amended): for an input manifest whose top-level `scripts` field is
`{"dev": "old"}`, the patched scripts section contains exactly the three
keys `dev`, `dev:convex` and `start` with their fixed values, every other
top-level field of the manifest is preserved unchanged, and the file
written is the two-space-indented structured serialization of the patched
manifest ending in a single trailing newline. -/
theorem c2_manifest_patch (pkg : List (String × Json))
    (h : lookupKey pkg "scripts" = some (Json.obj [("dev", Json.str "old")])) :
    ∃ p, patchPkg pkg = some p ∧
      lookupKey p "scripts" = some (Json.obj
        [("dev", Json.str devScriptValue),
         ("dev:convex", Json.str devConvexScriptValue),
         ("start", Json.str startScriptValue)]) ∧
      (∀ k2, k2 ≠ "scripts" → lookupKey p k2 = lookupKey pkg k2) ∧
      writtenManifest pkg = some (serJson 0 (Json.obj p) ++ "\n") ∧
      (∀ f, writtenManifest pkg = some f → endsInSingleNewline f) := by
  have hpatch : patchPkg pkg
      = some (upsert pkg "scripts" (Json.obj (patchScripts [("dev", Json.str "old")]))) := by
    unfold patchPkg
    rw [h]
  refine ⟨upsert pkg "scripts" (Json.obj (patchScripts [("dev", Json.str "old")])),
    hpatch, ?_, ?_, ?_, ?_⟩
  · rw [lookupKey_upsert_self]
    rfl
  · intro k2 hk2
    exact lookupKey_upsert_ne pkg "scripts" k2 _ hk2
  · unfold writtenManifest
    rw [hpatch]
    rfl
  · intro f hf
    unfold writtenManifest at hf
    rw [hpatch] at hf
    simp at hf
    obtain ⟨t, ht⟩ := serObj_ends 0 (upsert pkg "scripts" (Json.obj (patchScripts [("dev", Json.str "old")])))
    rw [← hf, serJson_obj, ht]
    exact endsInSingleNewline_of_brace t

/-- Witness for `c2_manifest_patch` at the one-field manifest
`{"scripts": {"dev": "old"}}`. -/
theorem c2_manifest_patch_witness :
    (lookupKey [("scripts", Json.obj [("dev", Json.str "old")])] "scripts"
      = some (Json.obj [("dev", Json.str "old")])) ∧
    (∃ p, patchPkg [("scripts", Json.obj [("dev", Json.str "old")])] = some p ∧
      lookupKey p "scripts" = some (Json.obj
        [("dev", Json.str devScriptValue),
         ("dev:convex", Json.str devConvexScriptValue),
         ("start", Json.str startScriptValue)]) ∧
      (∀ k2, k2 ≠ "scripts" →
        lookupKey p k2 = lookupKey [("scripts", Json.obj [("dev", Json.str "old")])] k2) ∧
      writtenManifest [("scripts", Json.obj [("dev", Json.str "old")])]
        = some (serJson 0 (Json.obj p) ++ "\n") ∧
      (∀ f, writtenManifest [("scripts", Json.obj [("dev", Json.str "old")])] = some f →
        endsInSingleNewline f)) :=
  ⟨rfl, c2_manifest_patch _ rfl⟩

theorem getLast?_append_right {α : Type} (l1 l2 : List α) (h : l2 ≠ []) :
    (l1 ++ l2).getLast? = l2.getLast? := by
  rw [← List.head?_reverse, ← List.head?_reverse, List.reverse_append]
  rcases hrev : l2.reverse with _ | ⟨a, rest⟩
  · exact absurd (by simpa using congrArg List.reverse hrev) h
  · rw [List.cons_append]
    rfl

theorem trimChars_sandwich2 (wsl wsr mid : List Char)
    (hl : ∀ c ∈ wsl, isSpaceChar c = true)
    (hr : ∀ c ∈ wsr, isSpaceChar c = true)
    (hmh : ∀ c, mid.head? = some c → isSpaceChar c = false)
    (hml : ∀ c, mid.getLast? = some c → isSpaceChar c = false) :
    trimChars (wsl ++ (mid ++ wsr)) = mid := by
  rw [← List.append_assoc]
  exact trimChars_sandwich wsl wsr mid hl hr hmh hml

/-- C10: on a single line of the form `KEY=VALUE` with whitespace around
the line, before and after the `=`, `readEnvFile` stores the key and the
value with that surrounding whitespace removed — the line, the text
before the first `=` and the text after it are each trimmed — and the
quote stripping is applied to the already-trimmed value. -/
theorem c10_whitespace_trimming (ws1 ws2 ws3 ws4 kr V : List Char) (k0 : Char)
    (hws1 : ∀ c ∈ ws1, isSpaceChar c = true) (hws1n : ('\n' : Char) ∉ ws1)
    (hws2 : ∀ c ∈ ws2, isSpaceChar c = true) (hws2n : ('\n' : Char) ∉ ws2)
    (hws3 : ∀ c ∈ ws3, isSpaceChar c = true) (hws3n : ('\n' : Char) ∉ ws3)
    (hws4 : ∀ c ∈ ws4, isSpaceChar c = true) (hws4n : ('\n' : Char) ∉ ws4)
    (hk0 : isSpaceChar k0 = false) (hk0hash : k0 ≠ '#')
    (hKlast : ∀ c, (k0 :: kr).getLast? = some c → isSpaceChar c = false)
    (hKeq : ('=' : Char) ∉ k0 :: kr) (hKn : ('\n' : Char) ∉ k0 :: kr)
    (hVh : ∀ c, V.head? = some c → isSpaceChar c = false)
    (hVl : ∀ c, V.getLast? = some c → isSpaceChar c = false)
    (hVn : ('\n' : Char) ∉ V) :
    readEnvFile (some (String.mk (ws1 ++ (k0 :: kr) ++ ws2 ++ ['='] ++ ws3 ++ V ++ ws4)))
      = [(String.mk (k0 :: kr), String.mk (stripQuotes V))] := by
  have hKws2_ne : ('=' : Char) ∉ (k0 :: kr) ++ ws2 := by
    intro hmem
    rcases List.mem_append.mp hmem with h1 | h1
    · exact hKeq h1
    · exact absurd (hws2 _ h1) (by decide)
  have hnl : ('\n' : Char) ∉ ws1 ++ (k0 :: kr) ++ ws2 ++ ['='] ++ ws3 ++ V ++ ws4 := by
    intro hmem
    simp only [List.mem_append] at hmem
    rcases hmem with ((((((h1 | h2) | h3) | h4) | h5) | h6) | h7)
    · exact hws1n h1
    · exact hKn h2
    · exact hws2n h3
    · rw [List.mem_singleton] at h4
      exact absurd h4 (by decide)
    · exact hws3n h5
    · exact hVn h6
    · exact hws4n h7
  have hmidhead : ∀ (X : List Char) (c : Char),
      ((k0 :: kr) ++ X).head? = some c → isSpaceChar c = false := by
    intro X c hc
    rw [List.cons_append] at hc
    injection hc with hc2
    rw [← hc2]
    exact hk0
  have hkey : trimChars ((k0 :: kr) ++ ws2) = k0 :: kr := by
    have h := trimChars_sandwich2 [] ws2 (k0 :: kr) (by simp) hws2
      (fun c hc => hmidhead [] c (by simpa using hc)) hKlast
    simpa using h
  show (splitLines (ws1 ++ (k0 :: kr) ++ ws2 ++ ['='] ++ ws3 ++ V ++ ws4)).foldl parseEnvLine []
      = [(String.mk (k0 :: kr), String.mk (stripQuotes V))]
  rw [splitLines_no_newline _ hnl]
  rw [List.foldl_cons, List.foldl_nil]
  cases V with
  | nil =>
    have hL : ws1 ++ (k0 :: kr) ++ ws2 ++ ['='] ++ ws3 ++ ([] : List Char) ++ ws4
        = ws1 ++ (((k0 :: kr) ++ (ws2 ++ ['='])) ++ (ws3 ++ ws4)) := by
      simp [List.append_assoc]
    have hmidlast : ∀ c, ((k0 :: kr) ++ (ws2 ++ ['='])).getLast? = some c → isSpaceChar c = false := by
      intro c hc
      rw [← List.append_assoc, List.getLast?_concat] at hc
      injection hc with hc2
      rw [← hc2]
      decide
    have htrim : trimChars (ws1 ++ (k0 :: kr) ++ ws2 ++ ['='] ++ ws3 ++ ([] : List Char) ++ ws4)
        = (k0 :: kr) ++ (ws2 ++ ['=']) := by
      rw [hL]
      exact trimChars_sandwich2 ws1 (ws3 ++ ws4) ((k0 :: kr) ++ (ws2 ++ ['=']))
        hws1
        (fun c hc => by
          rcases List.mem_append.mp hc with h1 | h1
          · exact hws3 c h1
          · exact hws4 c h1)
        (hmidhead (ws2 ++ ['=']))
        hmidlast
    unfold parseEnvLine
    rw [htrim]
    simp only [List.cons_append]
    rw [if_neg hk0hash]
    have heq2 : k0 :: (kr ++ (ws2 ++ ['='])) = ((k0 :: kr) ++ ws2) ++ '=' :: ([] : List Char) := by
      simp
    rw [heq2, findEqSplit_append _ _ hKws2_ne]
    show upsert [] (String.mk (trimChars ((k0 :: kr) ++ ws2)))
        (String.mk (stripQuotes (trimChars ([] : List Char))))
      = [(String.mk (k0 :: kr), String.mk (stripQuotes ([] : List Char)))]
    rw [hkey]
    rfl
  | cons v0 vr =>
    have hL : ws1 ++ (k0 :: kr) ++ ws2 ++ ['='] ++ ws3 ++ (v0 :: vr) ++ ws4
        = ws1 ++ (((k0 :: kr) ++ (ws2 ++ (['='] ++ (ws3 ++ (v0 :: vr))))) ++ ws4) := by
      simp [List.append_assoc]
    have hmidlast : ∀ c,
        ((k0 :: kr) ++ (ws2 ++ (['='] ++ (ws3 ++ (v0 :: vr))))).getLast? = some c →
          isSpaceChar c = false := by
      intro c hc
      rw [getLast?_append_right _ _ (by simp), getLast?_append_right _ _ (by simp),
        getLast?_append_right _ _ (by simp), getLast?_append_right _ _ (by simp)] at hc
      exact hVl c hc
    have htrim : trimChars (ws1 ++ (k0 :: kr) ++ ws2 ++ ['='] ++ ws3 ++ (v0 :: vr) ++ ws4)
        = (k0 :: kr) ++ (ws2 ++ (['='] ++ (ws3 ++ (v0 :: vr)))) := by
      rw [hL]
      exact trimChars_sandwich2 ws1 ws4 ((k0 :: kr) ++ (ws2 ++ (['='] ++ (ws3 ++ (v0 :: vr)))))
        hws1 hws4 (hmidhead (ws2 ++ (['='] ++ (ws3 ++ (v0 :: vr))))) hmidlast
    have hval : trimChars (ws3 ++ (v0 :: vr)) = v0 :: vr := by
      have h := trimChars_sandwich2 ws3 [] (v0 :: vr) hws3 (by simp) hVh hVl
      simpa using h
    unfold parseEnvLine
    rw [htrim]
    simp only [List.cons_append, List.nil_append]
    rw [if_neg hk0hash]
    have heq2 : k0 :: (kr ++ (ws2 ++ '=' :: (ws3 ++ (v0 :: vr))))
        = ((k0 :: kr) ++ ws2) ++ '=' :: (ws3 ++ (v0 :: vr)) := by
      simp
    rw [heq2, findEqSplit_append _ _ hKws2_ne]
    show upsert [] (String.mk (trimChars ((k0 :: kr) ++ ws2)))
        (String.mk (stripQuotes (trimChars (ws3 ++ (v0 :: vr)))))
      = [(String.mk (k0 :: kr), String.mk (stripQuotes (v0 :: vr)))]
    rw [hkey, hval]
    rfl

theorem forallOptOfEq {P : Char → Prop} {o : Option Char} {a : Char}
    (ho : o = some a) (h : P a) : ∀ c, o = some c → P c := by
  intro c hc
  rw [ho] at hc
  injection hc with h2
  rw [← h2]
  exact h

/-- Witness for `c10_whitespace_trimming` at the concrete line
` FOO = "b" ` (key `FOO`, quoted value `"b"`, one space of whitespace at
each of the four positions). -/
theorem c10_whitespace_trimming_witness :
    (∀ c ∈ ([' '] : List Char), isSpaceChar c = true) ∧
    readEnvFile (some (String.mk ([' '] ++ ('F' :: ['O', 'O']) ++ [' '] ++ ['='] ++ [' ']
        ++ ['"', 'b', '"'] ++ [' '])))
      = [(String.mk ('F' :: ['O', 'O']), String.mk (stripQuotes ['"', 'b', '"']))] := by
  constructor
  · decide
  · exact c10_whitespace_trimming [' '] [' '] [' '] [' '] ['O', 'O'] ['"', 'b', '"'] 'F'
      (by decide) (by decide) (by decide) (by decide) (by decide) (by decide) (by decide) (by decide)
      (by decide) (by decide)
      (forallOptOfEq rfl (by decide)) (by decide) (by decide)
      (forallOptOfEq rfl (by decide)) (forallOptOfEq rfl (by decide)) (by decide)
